import Mathlib

/-!
# Three Day Weekend website: UI effects

A shallow embedding of `src/js/main.js` and `src/js/canvas-effects.js`.

Conventions of the embedding:

* JavaScript numbers are modelled in exact arithmetic: clock readings
  (`new Date().getTime()`) are integers, every other number is an element of a
  linearly ordered field (`ℚ` where a concrete field is needed).
* `Math.sqrt` is a parameter of the canvas code.
* Mutable objects become explicit state; a callback registered with the
  browser becomes a function on that state, and the browser calling it
  becomes a fold over the delivered events.
-/

set_option autoImplicit false

namespace Website

/-! ## Utility functions (`main.js`, lines 10-20) -/

/-- One call, at clock reading `now`, of the function returned by
`throttle(func, delay)`, whose closure variable is `lastCall`. The result is
the new `lastCall` and the returned value: `none` is the bare `return;` of a
suppressed call, `some (func args)` the value of `return func(...args)`. -/
def throttle {α β : Type} (func : α → β) (delay : ℤ) (lastCall : ℤ) (now : ℤ) (args : α) :
    ℤ × Option β :=
  if now - lastCall < delay then
    (lastCall, none)
  else
    (now, some (func args))

/-- The state of `StickyNav`: the `lastCall` of its throttled listener and
whether `nav.classList` contains `'scrolled'`. -/
structure NavState where
  lastCall : ℤ
  scrolled : Bool
deriving DecidableEq

/-- The constant `this.scrollThreshold`. -/
def scrollThreshold : ℚ := 100

/-- The arrow function passed to `throttle` in `StickyNav.init`, as the new
membership of `'scrolled'` in the class list: `add` gives `true`, `remove`
gives `false`. -/
def navCallback (scrollY : ℚ) : Bool :=
  if scrollY > scrollThreshold then true else false

/-- One `scroll` event dispatched to the listener of `StickyNav.init`, at
clock reading `now` with `window.scrollY = scrollY`. -/
def StickyNav.onScroll (s : NavState) (now : ℤ) (scrollY : ℚ) : NavState :=
  match throttle navCallback 100 s.lastCall now scrollY with
  | (lastCall, some b) => { lastCall := lastCall, scrolled := b }
  | (lastCall, none) => { lastCall := lastCall, scrolled := s.scrolled }

/-- A sequence of `scroll` events `(now, scrollY)` dispatched in order. -/
def StickyNav.run (s : NavState) (events : List (ℤ × ℚ)) : NavState :=
  events.foldl (fun st e => StickyNav.onScroll st e.1 e.2) s

/-- The state after `new StickyNav()`: `lastCall = 0`; `scrolled` is the class
list of the page's markup. -/
def StickyNav.new (scrolled : Bool) : NavState := { lastCall := 0, scrolled := scrolled }

/-! ## Scroll progress indicator (`main.js`, lines 284-293) -/

/-- The arrow function passed to `throttle` in `ScrollProgress.init`: the
argument of `scaleX(...)` written to `progressBar.style.transform`. -/
def scrollProgress (windowHeight documentHeight scrollTop : ℚ) : ℚ :=
  let scrollPercent := (scrollTop / (documentHeight - windowHeight)) * 100
  scrollPercent / 100

/-- The state of `ScrollProgress`: the `lastCall` of its throttled listener
and the `scaleX` of the bar (`0` from `createProgressBar`). -/
structure ProgressState where
  lastCall : ℤ
  scaleX : ℚ
deriving DecidableEq

/-- One `scroll` event dispatched to the listener of `ScrollProgress.init`. -/
def ScrollProgress.onScroll (s : ProgressState) (now : ℤ)
    (windowHeight documentHeight scrollTop : ℚ) : ProgressState :=
  match throttle (fun y => scrollProgress windowHeight documentHeight y) 16 s.lastCall now
      scrollTop with
  | (lastCall, some v) => { lastCall := lastCall, scaleX := v }
  | (lastCall, none) => { lastCall := lastCall, scaleX := s.scaleX }

/-! ## Lazy load images (`main.js`, lines 300-328) -/

/-- An `img` element: its `src`, its `data-src` attribute (`none` when the
attribute is absent, the `null` of `getAttribute`), and whether the
`imageObserver` observes it. -/
structure Img where
  src : Option String
  dataSrc : Option String
  observed : Bool
deriving DecidableEq

/-- The `img` elements of the document, by identity, and the log of the
assignments `img.src = v` made so far (oldest first), each with the value `v`
that `getAttribute('data-src')` returned. -/
structure LazyState where
  imgs : ℕ → Img
  assigned : List (ℕ × Option String)

/-- The state after `new LazyLoadImages()` in a browser that has
`IntersectionObserver`: every image selected by `img[data-src]` is observed and
no `src` has been assigned. -/
def LazyLoadImages.init (page : ℕ → Img) : LazyState :=
  { imgs := fun k => { page k with observed := (page k).dataSrc.isSome },
    assigned := [] }

/-- The classes of the two source files. -/
inductive Component where
  | SmoothScroll
  | ScrollReveal
  | CounterAnimation
  | StickyNav
  | ParallaxEffect
  | RippleEffect
  | CardTilt
  | ScrollProgress
  | LazyLoadImages
  | CustomCursor
  | PageLoader
  | CanvasEffect
deriving DecidableEq, Repr

/-- The `new` expressions the `DOMContentLoaded` listener of `main.js` runs,
in order. The line `// new CustomCursor();` is a comment. -/
def mainDOMContentLoaded : List Component :=
  [.SmoothScroll, .ScrollReveal, .CounterAnimation, .StickyNav, .LazyLoadImages, .PageLoader,
   .RippleEffect, .CardTilt, .ScrollProgress, .ParallaxEffect]

/-- The `new` expressions the `DOMContentLoaded` listener of
`canvas-effects.js` runs. -/
def canvasDOMContentLoaded : List Component :=
  [.CanvasEffect]

/-- Every instance constructed when `DOMContentLoaded` fires. -/
def pageLoad : List Component :=
  canvasDOMContentLoaded ++ mainDOMContentLoaded

/-- The components the specification lists as UI effects. -/
def listedComponents : List Component :=
  [.CanvasEffect, .ScrollReveal, .CounterAnimation, .StickyNav, .ParallaxEffect, .RippleEffect,
   .CardTilt, .ScrollProgress, .LazyLoadImages, .CustomCursor, .PageLoader]

/-! ## Canvas particles (`canvas-effects.js`, lines 110-160) -/

/-- An element of `this.particles`. -/
structure Particle (K : Type) where
  x : K
  y : K
  size : K
  speedX : K
  speedY : K
  color : String
  opacity : K
deriving DecidableEq

/-- What one `drawParticles` pass does with the 2D context, in order: a filled
disc for a particle, the evaluation of the condition `distance < 120` for the
particle at `index` and the particle at `other`, and a stroked connection. -/
inductive DrawCmd (K : Type) where
  | fill (x y size : K) (color : String) (globalAlpha : K)
  | connectionTest (index other : ℕ) (distance : K)
  | stroke (fromX fromY toX toY : K) (color : String) (globalAlpha : K)
deriving DecidableEq

/-- The fields of a `CanvasEffect` that `drawParticles` reads and writes. -/
structure CanvasState (K : Type) where
  width : K
  height : K
  mouseX : K
  mouseY : K
  particles : List (Particle K)

section Canvas

variable {K : Type} [LinearOrderedField K]

/-- The statements under `// Update position`. -/
def updatePosition (particle : Particle K) : Particle K :=
  { particle with x := particle.x + particle.speedX, y := particle.y + particle.speedY }

/-- The statements under `// Mouse interaction`. -/
def mouseInteraction (sqrt : K → K) (mouseX mouseY : K) (particle : Particle K) : Particle K :=
  let dx := mouseX - particle.x
  let dy := mouseY - particle.y
  let distance := sqrt (dx * dx + dy * dy)
  let maxDistance : K := 150
  if distance < maxDistance then
    let force := (maxDistance - distance) / maxDistance
    { particle with x := particle.x - dx * force * (3 / 100),
                    y := particle.y - dy * force * (3 / 100) }
  else
    particle

/-- The statements under `// Wrap around edges`, in source order. -/
def wrapEdges (width height : K) (particle : Particle K) : Particle K :=
  let p1 := if particle.x < 0 then { particle with x := width } else particle
  let p2 := if p1.x > width then { p1 with x := 0 } else p1
  let p3 := if p2.y < 0 then { p2 with y := height } else p2
  if p3.y > height then { p3 with y := 0 } else p3

/-- The loop under `// Draw connections`: `others` is
`this.particles.slice(index + 1)` from position `other` on. -/
def drawConnections (sqrt : K → K) (particle : Particle K) (index : ℕ) :
    ℕ → List (Particle K) → List (DrawCmd K)
  | _, [] => []
  | other, otherParticle :: others =>
    let dx := particle.x - otherParticle.x
    let dy := particle.y - otherParticle.y
    let distance := sqrt (dx * dx + dy * dy)
    DrawCmd.connectionTest index other distance ::
      ((if distance < 120 then
          [DrawCmd.stroke particle.x particle.y otherParticle.x otherParticle.y particle.color
            ((120 - distance) / 120 * (2 / 10))]
        else []) ++ drawConnections sqrt particle index (other + 1) others)

/-- The body of `this.particles.forEach` from position `index` on: the
particles after the pass and the drawing done. The particles after `index` are
still as the previous pass left them when the particle at `index` is connected
to them. -/
def drawParticlesFrom (sqrt : K → K) (mouseX mouseY width height : K) :
    ℕ → List (Particle K) → List (Particle K) × List (DrawCmd K)
  | _, [] => ([], [])
  | index, particle :: rest =>
    let p := wrapEdges width height (mouseInteraction sqrt mouseX mouseY (updatePosition particle))
    let drawn := DrawCmd.fill p.x p.y p.size p.color p.opacity ::
      drawConnections sqrt p index (index + 1) rest
    let r := drawParticlesFrom sqrt mouseX mouseY width height (index + 1) rest
    (p :: r.1, drawn ++ r.2)

/-- The method `drawParticles`. -/
def drawParticles (sqrt : K → K) (c : CanvasState K) : CanvasState K × List (DrawCmd K) :=
  let r := drawParticlesFrom sqrt c.mouseX c.mouseY c.width c.height 0 c.particles
  ({ c with particles := r.1 }, r.2)

/-- The pairs `(index, other)` of the connection tests of a pass, in order. -/
def connectionTests : List (DrawCmd K) → List (ℕ × ℕ)
  | [] => []
  | DrawCmd.connectionTest index other _ :: cmds => (index, other) :: connectionTests cmds
  | _ :: cmds => connectionTests cmds

end Canvas

/-! ## Specification-side definitions and example inputs -/

/-- The scroll events that the throttle of `StickyNav` lets through, in the
words of its rule: an event is let through when its clock reading is at least
100 ms after that of the previous event let through (`lastCall` before any). -/
def handledEvents : ℤ → List (ℤ × ℚ) → List (ℤ × ℚ)
  | _, [] => []
  | lastCall, e :: events =>
    if 100 ≤ e.1 - lastCall then e :: handledEvents e.1 events
    else handledEvents lastCall events

/-- The pairs `(index, other)` with `first ≤ index < other < first + count`,
in the order in which a pass over `count` particles starting at position
`first` meets them. -/
def pairsFrom : ℕ → ℕ → List (ℕ × ℕ)
  | _, 0 => []
  | first, count + 1 =>
    (List.range' (first + 1) count).map (fun other => (first, other)) ++
      pairsFrom (first + 1) count

/-- An executable stand-in for `Math.sqrt` on `ℚ`: the integer square root of
the integer part, exact on perfect squares. -/
def isqrt (s : ℚ) : ℚ := (Nat.sqrt ⌊s⌋.toNat : ℕ)

/-- A particle at the origin, at rest. -/
def exampleParticle {K : Type} [LinearOrderedField K] : Particle K :=
  { x := 0, y := 0, size := 2, speedX := 0, speedY := 0, color := "rgba(2, 79, 79, 0.4)",
    opacity := 1 / 2 }

/-- An 800 by 600 canvas with the pointer at `(3, 4)` and three particles, two
of which leave the canvas on their next move. -/
def exampleCanvas : CanvasState ℚ :=
  { width := 800, height := 600, mouseX := 3, mouseY := 4,
    particles :=
      [exampleParticle,
       { x := 0, y := 600, size := 1, speedX := -1 / 10, speedY := 1 / 10,
         color := "rgba(0, 191, 255, 0.3)", opacity := 1 / 5 },
       { x := 800, y := 300, size := 3, speedX := 1 / 10, speedY := 0,
         color := "rgba(255, 107, 53, 0.2)", opacity := 7 / 10 }] }

/-! ## Lemmas: throttle -/

theorem stickyNav_run_handled (events : List (ℤ × ℚ)) (s : NavState) :
    (StickyNav.run s events).scrolled =
      match (handledEvents s.lastCall events).getLast? with
      | none => s.scrolled
      | some e => decide (e.2 > 100) := by
  induction events generalizing s with
  | nil => simp [StickyNav.run, handledEvents]
  | cons e rest ih =>
    have hstep : StickyNav.run s (e :: rest) = StickyNav.run (StickyNav.onScroll s e.1 e.2) rest :=
      rfl
    rw [hstep, ih]
    by_cases h : e.1 - s.lastCall < 100
    · have h1 : StickyNav.onScroll s e.1 e.2 = s := by
        simp [StickyNav.onScroll, throttle, h]
      have h2 : handledEvents s.lastCall (e :: rest) = handledEvents s.lastCall rest := by
        simp [handledEvents, h]
      rw [h1, h2]
    · have h1 : StickyNav.onScroll s e.1 e.2 =
          { lastCall := e.1, scrolled := decide (e.2 > 100) } := by
        simp [StickyNav.onScroll, throttle, h, navCallback, scrollThreshold]
      have h2 : handledEvents s.lastCall (e :: rest) = e :: handledEvents e.1 rest := by
        simp [handledEvents, not_lt.mp h]
      rw [h1, h2]
      cases hl : handledEvents e.1 rest with
      | nil => simp
      | cons b t =>
        rw [List.getLast?_cons_cons, List.getLast?_eq_getLast _ (List.cons_ne_nil b t)]

/-! ## Lemmas: counter -/

theorem connectionTests_append {K : Type} (a b : List (DrawCmd K)) :
    connectionTests (a ++ b) = connectionTests a ++ connectionTests b := by
  induction a with
  | nil => rfl
  | cons c t ih => cases c <;> simp [connectionTests, ih]

section CanvasLemmas

variable {K : Type} [LinearOrderedField K]

theorem wrapEdges_bounds (width height : K) (hw : 0 ≤ width) (hh : 0 ≤ height)
    (p : Particle K) :
    0 ≤ (wrapEdges width height p).x ∧ (wrapEdges width height p).x ≤ width ∧
      0 ≤ (wrapEdges width height p).y ∧ (wrapEdges width height p).y ≤ height := by
  unfold wrapEdges
  by_cases h1 : p.x < 0 <;> by_cases h2 : p.x > width <;> by_cases h3 : p.y < 0 <;>
    by_cases h4 : p.y > height <;>
    simp [h1, h2, h3, h4, hw, hh, not_lt.mp, le_of_lt]

theorem drawParticlesFrom_bounds (sqrt : K → K) (mouseX mouseY width height : K)
    (hw : 0 ≤ width) (hh : 0 ≤ height) (particles : List (Particle K)) (index : ℕ) :
    ∀ p ∈ (drawParticlesFrom sqrt mouseX mouseY width height index particles).1,
      0 ≤ p.x ∧ p.x ≤ width ∧ 0 ≤ p.y ∧ p.y ≤ height := by
  induction particles generalizing index with
  | nil => simp [drawParticlesFrom]
  | cons particle rest ih =>
    intro p hp
    simp only [drawParticlesFrom, List.mem_cons] at hp
    rcases hp with rfl | hp
    · exact wrapEdges_bounds width height hw hh _
    · exact ih (index + 1) p hp

theorem drawParticlesFrom_length (sqrt : K → K) (mouseX mouseY width height : K)
    (particles : List (Particle K)) (index : ℕ) :
    (drawParticlesFrom sqrt mouseX mouseY width height index particles).1.length =
      particles.length := by
  induction particles generalizing index with
  | nil => simp [drawParticlesFrom]
  | cons particle rest ih => simp [drawParticlesFrom, ih]

theorem connectionTests_drawConnections (sqrt : K → K) (particle : Particle K) (index : ℕ)
    (others : List (Particle K)) (other : ℕ) :
    connectionTests (drawConnections sqrt particle index other others) =
      (List.range' other others.length).map (fun j => (index, j)) := by
  induction others generalizing other with
  | nil => simp [drawConnections, connectionTests]
  | cons o rest ih =>
    simp only [drawConnections, connectionTests, connectionTests_append, List.length_cons,
      List.range'_succ, List.map_cons, ih]
    split_ifs <;> simp [connectionTests]

theorem connectionTests_drawParticlesFrom (sqrt : K → K) (mouseX mouseY width height : K)
    (particles : List (Particle K)) (index : ℕ) :
    connectionTests (drawParticlesFrom sqrt mouseX mouseY width height index particles).2 =
      pairsFrom index particles.length := by
  induction particles generalizing index with
  | nil => simp [drawParticlesFrom, connectionTests, pairsFrom]
  | cons particle rest ih =>
    simp only [drawParticlesFrom, List.cons_append, connectionTests, List.append_eq,
      connectionTests_append, connectionTests_drawConnections, List.length_cons, pairsFrom, ih]

end CanvasLemmas

theorem mem_pairsFrom (count first i j : ℕ) :
    (i, j) ∈ pairsFrom first count ↔ first ≤ i ∧ i < j ∧ j < first + count := by
  induction count generalizing first with
  | zero =>
    simp only [pairsFrom, List.not_mem_nil, false_iff]
    omega
  | succ n ih =>
    simp only [pairsFrom, List.mem_append, List.mem_map, List.mem_range', Prod.mk.injEq, ih]
    constructor
    · rintro (⟨a, ⟨k, hk, rfl⟩, rfl, rfl⟩ | h)
      · omega
      · omega
    · intro h
      by_cases hi : i = first
      · left
        exact ⟨j, ⟨j - (first + 1), by omega, by omega⟩, hi.symm, rfl⟩
      · right
        omega

theorem length_pairsFrom (count first : ℕ) :
    (pairsFrom first count).length = count * (count - 1) / 2 := by
  induction count generalizing first with
  | zero => rfl
  | succ n ih =>
    simp only [pairsFrom, List.length_append, List.length_map, List.length_range', ih,
      Nat.add_sub_cancel]
    have h2 : n * (n - 1) % 2 = 0 := by
      cases n with
      | zero => rfl
      | succ m =>
        simp only [Nat.add_sub_cancel]
        have := Nat.even_mul_succ_self m
        rw [Nat.mul_comm]
        exact Nat.even_iff.mp this
    have h3 : (n + 1) * n = n * (n - 1) + 2 * n := by
      cases n with
      | zero => rfl
      | succ m =>
        simp only [Nat.add_sub_cancel]
        ring
    rw [h3]
    omega

theorem nodup_pairsFrom (count first : ℕ) : (pairsFrom first count).Nodup := by
  induction count generalizing first with
  | zero => simp [pairsFrom]
  | succ n ih =>
    simp only [pairsFrom]
    rw [List.nodup_append]
    refine ⟨?_, ih (first + 1), ?_⟩
    · apply List.Nodup.map
      · intro a b h
        exact (Prod.mk.inj h).2
      · exact List.nodup_range' _ _
    · intro p hp hq
      obtain ⟨i, j⟩ := p
      rw [mem_pairsFrom] at hq
      simp only [List.mem_map, List.mem_range', Prod.mk.injEq] at hp
      obtain ⟨a, _, rfl, _⟩ := hp
      omega

/-! ## Lemmas: lazy loading -/

/-- C1, as amended: when `DOMContentLoaded` fires, every listed UI-effect
component other than the cursor follower is constructed exactly once, and the
cursor follower `CustomCursor` is not constructed. -/
theorem pageLoad_instances :
    (∀ c, c ∈ listedComponents → c ≠ Component.CustomCursor → pageLoad.count c = 1) ∧
      pageLoad.count Component.CustomCursor = 0 := by
  refine ⟨?_, by decide⟩
  intro c
  cases c <;> decide

/-- C1, as stated, fails: `CustomCursor` is a listed component and the page
load constructs no instance of it. -/
theorem pageLoad_no_customCursor :
    Component.CustomCursor ∈ listedComponents ∧ pageLoad.count Component.CustomCursor = 0 ∧
      pageLoad.count Component.CustomCursor ≠ 1 := by
  decide

/-- C6, as stated, fails: a scroll to 200 at clock reading 1000 adds
`'scrolled'`; the scroll back to 0 at 1050 is suppressed by the throttle, so
the class stays although the last `scrollY` is not above 100. -/
theorem stickyNav_suppressed_last_event :
    (StickyNav.run (StickyNav.new false) [(1000, 200), (1050, 0)]).scrolled = true ∧
      ¬ ((0 : ℚ) > scrollThreshold) := by
  constructor
  · norm_num [StickyNav.run, StickyNav.new, StickyNav.onScroll, throttle, navCallback,
      scrollThreshold]
  · norm_num [scrollThreshold]

/-- C6, as amended: after a sequence of scroll events the nav carries
`'scrolled'` exactly when the `scrollY` of the last event that the 100 ms
throttle let through is greater than 100 (when it let none through, exactly
when the markup had the class). In particular a last event that is let through
decides the class by its own `scrollY`, and a suppressed last event changes
nothing. -/
theorem stickyNav_scrolled_iff (init : Bool) (events : List (ℤ × ℚ)) (now : ℤ) (scrollY : ℚ) :
    ((StickyNav.run (StickyNav.new init) events).scrolled = true ↔
        match (handledEvents 0 events).getLast? with
        | none => init = true
        | some e => e.2 > 100) ∧
      (100 ≤ now - (StickyNav.run (StickyNav.new init) events).lastCall →
        ((StickyNav.run (StickyNav.new init) (events ++ [(now, scrollY)])).scrolled = true ↔
          scrollY > 100)) ∧
      (now - (StickyNav.run (StickyNav.new init) events).lastCall < 100 →
        StickyNav.run (StickyNav.new init) (events ++ [(now, scrollY)]) =
          StickyNav.run (StickyNav.new init) events) := by
  have happ : StickyNav.run (StickyNav.new init) (events ++ [(now, scrollY)]) =
      StickyNav.onScroll (StickyNav.run (StickyNav.new init) events) now scrollY := by
    simp [StickyNav.run, List.foldl_append]
  refine ⟨?_, ?_, ?_⟩
  · rw [stickyNav_run_handled]
    have hl : (StickyNav.new init).lastCall = 0 := rfl
    rw [hl]
    cases (handledEvents 0 events).getLast? with
    | none => simp [StickyNav.new]
    | some e => simp
  · intro h
    rw [happ]
    simp [StickyNav.onScroll, throttle, not_lt.mpr h, navCallback, scrollThreshold]
  · intro h
    rw [happ]
    simp [StickyNav.onScroll, throttle, h]

/-- C3: on a canvas with `width ≥ 0` and `height ≥ 0`, after a `drawParticles`
pass every particle lies inside the canvas, `0 ≤ x ≤ width` and
`0 ≤ y ≤ height`, whatever the particles, their velocities and the pointer
position were; the pass keeps the number of particles and the canvas size. -/
theorem drawParticles_inside_canvas {K : Type} [LinearOrderedField K] (sqrt : K → K)
    (c : CanvasState K) (hw : 0 ≤ c.width) (hh : 0 ≤ c.height) :
    (drawParticles sqrt c).1.width = c.width ∧
      (drawParticles sqrt c).1.height = c.height ∧
      (drawParticles sqrt c).1.particles.length = c.particles.length ∧
      ∀ p ∈ (drawParticles sqrt c).1.particles,
        0 ≤ p.x ∧ p.x ≤ c.width ∧ 0 ≤ p.y ∧ p.y ≤ c.height :=
  ⟨rfl, rfl, drawParticlesFrom_length sqrt c.mouseX c.mouseY c.width c.height c.particles 0,
    drawParticlesFrom_bounds sqrt c.mouseX c.mouseY c.width c.height hw hh c.particles 0⟩

/-- C4: a `drawParticles` pass over `n` particles runs the connection test
`n * (n - 1) / 2` times, no pair twice, and on exactly the pairs
`(index, other)` with `index < other < n`. -/
theorem drawParticles_connection_tests {K : Type} [LinearOrderedField K] (sqrt : K → K)
    (c : CanvasState K) :
    (connectionTests (drawParticles sqrt c).2).length =
        c.particles.length * (c.particles.length - 1) / 2 ∧
      (connectionTests (drawParticles sqrt c).2).Nodup ∧
      (∀ i j : ℕ, (i, j) ∈ connectionTests (drawParticles sqrt c).2 ↔
        i < j ∧ j < c.particles.length) ∧
      (∀ i : ℕ, (i, i) ∉ connectionTests (drawParticles sqrt c).2) := by
  have h : connectionTests (drawParticles sqrt c).2 = pairsFrom 0 c.particles.length :=
    connectionTests_drawParticlesFrom sqrt c.mouseX c.mouseY c.width c.height c.particles 0
  rw [h]
  refine ⟨length_pairsFrom _ _, nodup_pairsFrom _ _, ?_, ?_⟩
  · intro i j
    rw [mem_pairsFrom]
    omega
  · intro i
    rw [mem_pairsFrom]
    omega

/-- C3 on `exampleCanvas`. -/
theorem drawParticles_inside_canvas_witness :
    0 ≤ exampleCanvas.width ∧ 0 ≤ exampleCanvas.height ∧
      (drawParticles isqrt exampleCanvas).1.width = exampleCanvas.width ∧
      (drawParticles isqrt exampleCanvas).1.height = exampleCanvas.height ∧
      (drawParticles isqrt exampleCanvas).1.particles.length = exampleCanvas.particles.length ∧
      ∀ p ∈ (drawParticles isqrt exampleCanvas).1.particles,
        0 ≤ p.x ∧ p.x ≤ exampleCanvas.width ∧ 0 ≤ p.y ∧ p.y ≤ exampleCanvas.height :=
  ⟨by norm_num [exampleCanvas], by norm_num [exampleCanvas],
    drawParticles_inside_canvas isqrt exampleCanvas (by norm_num [exampleCanvas])
      (by norm_num [exampleCanvas])⟩

end Website
